import Mathlib

/-!
Verification development for the `smart_expense_ai` data layer
(`expense_model.py`).  The pandas `DataFrame` with columns
`date, category, amount` is embedded as a `List ExpenseRecord`:
`date : Option String` (a `none` models a missing/NaN cell),
`category : String`, and `amount : Option ℚ` (a `none` models a
missing/NaN amount; exact rationals stand in for IEEE floats).
The CSV store on disk is embedded as `Option (List ExpenseRecord)`
(`none` = the file does not exist); file-writing operations thread
this store state explicitly.

`pd.to_datetime(..., errors="coerce")` is modelled by `parseDate`,
a strict `YYYY-MM-DD` (calendar-checked) parser that returns `none`
on anything unparsable, and `.dt.strftime("%Y-%m-%d")` by
`formatDate`.
-/

/-- A calendar date, the embedding of a pandas `Timestamp` at day
granularity. -/
structure Date where
  year : Nat
  month : Nat
  day : Nat
deriving DecidableEq, Repr

/-- Split a character list on a separator character (used to cut a
date string at the dashes). -/
def splitOnChar (sep : Char) : List Char → List (List Char)
  | [] => [[]]
  | c :: rest =>
    match splitOnChar sep rest with
    | [] => if c = sep then [[], []] else [[c]]
    | h :: t => if c = sep then [] :: h :: t else (c :: h) :: t

/-- Numeric value of a digit string. -/
def digitsVal (cs : List Char) : Nat :=
  cs.foldl (fun a ch => a * 10 + (ch.toNat - 48)) 0

/-- All characters are decimal digits. -/
def allDigits (cs : List Char) : Bool :=
  cs.all (fun ch => ch.isDigit)

/-- Gregorian leap-year test. -/
def isLeap (y : Nat) : Bool :=
  decide (y % 4 = 0 ∧ (y % 100 ≠ 0 ∨ y % 400 = 0))

/-- Number of days in a month. -/
def daysInMonth (y m : Nat) : Nat :=
  if m = 2 then (if isLeap y then 29 else 28)
  else if m = 4 ∨ m = 6 ∨ m = 9 ∨ m = 11 then 30 else 31

/-- Build a calendar-valid date from the three dash-separated parts. -/
def mkDate (ys ms ds : List Char) : Option Date :=
  if ys ≠ [] ∧ ms ≠ [] ∧ ds ≠ [] ∧ allDigits ys ∧ allDigits ms ∧ allDigits ds then
    if 1 ≤ digitsVal ms ∧ digitsVal ms ≤ 12 ∧ 1 ≤ digitsVal ds ∧
        digitsVal ds ≤ daysInMonth (digitsVal ys) (digitsVal ms) then
      some ⟨digitsVal ys, digitsVal ms, digitsVal ds⟩
    else none
  else none

/-- Model of `pd.to_datetime(s, errors="coerce")`: `none` is `NaT`. -/
def parseDate (s : String) : Option Date :=
  match splitOnChar '-' s.data with
  | [ys, ms, ds] => mkDate ys ms ds
  | _ => none

/-- Zero-pad a numeral to the given width. -/
def padZeros (w : Nat) (n : Nat) : String :=
  String.mk (List.replicate (w - (toString n).length) '0') ++ toString n

/-- Model of `.strftime("%Y-%m-%d")`. -/
def formatDate (d : Date) : String :=
  padZeros 4 d.year ++ "-" ++ padZeros 2 d.month ++ "-" ++ padZeros 2 d.day

/-- Lexicographic order on dates, the embedding of pandas `Timestamp`
comparison. -/
def dateLE (a b : Date) : Bool :=
  decide (a.year < b.year ∨ (a.year = b.year ∧
    (a.month < b.month ∨ (a.month = b.month ∧ a.day ≤ b.day))))

theorem dateLE_trans {a b c : Date} (h₁ : dateLE a b = true)
    (h₂ : dateLE b c = true) : dateLE a c = true := by
  simp only [dateLE, decide_eq_true_eq] at *
  omega

/-- One row of the expense table (one pandas row with the normalized
columns `date, category, amount`). -/
structure ExpenseRecord where
  date : Option String
  category : String
  amount : Option ℚ
deriving DecidableEq, Repr

/-- The durable CSV store: `none` when `DATA_FILE` does not exist,
`some rows` for its parsed contents. -/
abbrev Store := Option (List ExpenseRecord)

/-- `_init_file` (expense_model.py lines 23-27): write an empty table
with columns `date, category, amount` and return it. -/
def _init_file : List ExpenseRecord × Store := ([], some [])

/-- Line 52, `pd.to_numeric(df["amount"], errors="coerce").fillna(0.0)`:
a missing or unparsable amount is coerced to `0.0`. -/
def coerceRow (r : ExpenseRecord) : ExpenseRecord :=
  { r with amount := some (r.amount.getD 0) }

/-- `load_data` (lines 30-53): read the store, creating it when absent;
the column normalization of lines 44-49 is the identity on this record
type; amounts are cleaned by `coerceRow`.  Returns the table together
with the store state after the call. -/
def load_data (s : Store) : List ExpenseRecord × Store :=
  match s with
  | none => (_init_file.1.map coerceRow, _init_file.2)
  | some rows => (rows.map coerceRow, some rows)

/-- `save_data` (lines 56-58): overwrite the store with the table. -/
def save_data (df : List ExpenseRecord) (_s : Store) : Store :=
  some df

/-- `add_expense` (lines 61-83): load, append one record, save, return
the updated table (paired with the resulting store state). -/
def add_expense (date category : String) (amount : ℚ) (s : Store) :
    List ExpenseRecord × Store :=
  ((load_data s).1 ++ [⟨some date, category, some amount⟩],
   save_data ((load_data s).1 ++ [⟨some date, category, some amount⟩]) (load_data s).2)

theorem coerceRow_coerceRow (r : ExpenseRecord) :
    coerceRow (coerceRow r) = coerceRow r := rfl

theorem load_map_coerce (s : Store) :
    ((load_data s).1).map coerceRow = (load_data s).1 := by
  cases s with
  | none => rfl
  | some rows =>
    simp only [load_data, List.map_map]
    rfl

/-- **C1.** `add` is append-only and persisted: after
`add_expense d c a`, loading from the resulting store yields exactly
the previously loaded table with the one record `(d, c, a)` appended —
so the length grows by one, the last record is `(d, c, float a)`, the
earlier records are unchanged — and the store handed back by `add`
already holds the appended table. -/
theorem add_then_load (s : Store) (d c : String) (a : ℚ) :
    (load_data (add_expense d c a s).2).1
      = (load_data s).1 ++ [⟨some d, c, some a⟩]
    ∧ (load_data (add_expense d c a s).2).1.length = (load_data s).1.length + 1
    ∧ (load_data (add_expense d c a s).2).1.getLast?
        = some ⟨some d, c, some a⟩
    ∧ (load_data (add_expense d c a s).2).1.take (load_data s).1.length
        = (load_data s).1
    ∧ (add_expense d c a s).2 = some (add_expense d c a s).1 := by
  have hmain : (load_data (add_expense d c a s).2).1
      = (load_data s).1 ++ [⟨some d, c, some a⟩] := by
    show ((load_data s).1 ++ [(⟨some d, c, some a⟩ : ExpenseRecord)]).map coerceRow = _
    rw [List.map_append, load_map_coerce]
    rfl
  refine ⟨hmain, ?_, ?_, ?_, rfl⟩
  · rw [hmain]; simp
  · rw [hmain]; simp
  · rw [hmain]; exact List.take_left _ _

/-- **C5.** Loading a nonexistent store returns the empty table (its
rows carry exactly the fields `date, category, amount` by the type of
`ExpenseRecord`) and persists that empty store; loading an existing
store keeps every row in place, only coercing its amount, and a row
whose amount is missing/unparsable (`none`) is loaded with amount `0`
rather than rejected. -/
theorem load_spec :
    load_data none = ([], some [])
    ∧ (∀ rows : List ExpenseRecord,
        load_data (some rows) = (rows.map coerceRow, some rows))
    ∧ (∀ r : ExpenseRecord, r.amount = none → (coerceRow r).amount = some 0) := by
  refine ⟨rfl, fun rows => rfl, fun r h => ?_⟩
  simp [coerceRow, h]

/-- Witness for `load_spec` at a concrete store: a row with a missing
amount is loaded as amount `0`. -/
theorem load_spec_witness :
    (⟨some "2024-01-01", "Food", none⟩ : ExpenseRecord).amount = none
    ∧ (coerceRow ⟨some "2024-01-01", "Food", none⟩).amount = some 0 :=
  ⟨rfl, load_spec.2.2 ⟨some "2024-01-01", "Food", none⟩ rfl⟩

/-- Model of Python `str.lower()` (ASCII case folding, the case used
by the data layer). -/
def lowerStr (s : String) : String :=
  String.mk (s.data.map Char.toLower)

/-- The `date` column after `pd.to_datetime(df["date"], errors="coerce")`
(line 105): each row paired with its parsed date (`none` = `NaT`). -/
def datePairs (df : List ExpenseRecord) : List (ExpenseRecord × Option Date) :=
  df.map (fun r => (r, r.date.bind parseDate))

/-- Row test for `df["date"] >= start` (line 110); `NaT >= start` is
false in pandas. -/
def startKeep (st : Date) (p : ExpenseRecord × Option Date) : Bool :=
  match p.2 with
  | some d => dateLE st d
  | none => false

/-- Row test for `df["date"] <= end` (line 115). -/
def endKeep (en : Date) (p : ExpenseRecord × Option Date) : Bool :=
  match p.2 with
  | some d => dateLE d en
  | none => false

/-- Row test for
`df["category"].astype(str).str.lower() == category.lower()` (line 118);
the lowering of the requested category is passed in already lowered. -/
def catKeep (cl : String) (p : ExpenseRecord × Option Date) : Bool :=
  lowerStr p.1.category == cl

/-- Lines 107-110: when `start_date` is truthy and parses, keep rows
with `date >= start`; an unparsable or empty bound is skipped. -/
def applyStart (s : Option String) (rows : List (ExpenseRecord × Option Date)) :
    List (ExpenseRecord × Option Date) :=
  match s with
  | none => rows
  | some sv =>
    if sv = "" then rows
    else
      match parseDate sv with
      | some st => rows.filter (startKeep st)
      | none => rows

/-- Lines 112-115: the `end_date` bound. -/
def applyEnd (e : Option String) (rows : List (ExpenseRecord × Option Date)) :
    List (ExpenseRecord × Option Date) :=
  match e with
  | none => rows
  | some ev =>
    if ev = "" then rows
    else
      match parseDate ev with
      | some en => rows.filter (endKeep en)
      | none => rows

/-- Lines 117-118: the category filter, skipped when the category is
falsy or exactly the sentinel `"All"`. -/
def applyCat (c : Option String) (rows : List (ExpenseRecord × Option Date)) :
    List (ExpenseRecord × Option Date) :=
  match c with
  | none => rows
  | some cv =>
    if cv = "" then rows
    else if cv = "All" then rows
    else rows.filter (catKeep (lowerStr cv))

/-- Line 121, `df["date"] = df["date"].dt.strftime("%Y-%m-%d")`: the
parsed date is written back as a normalized string; `NaT` becomes NaN
(`none`). -/
def projRow (p : ExpenseRecord × Option Date) : ExpenseRecord :=
  { p.1 with date := p.2.map formatDate }

/-- `filter_data` (lines 86-122) for an explicitly passed table: empty
input is returned as is; otherwise the date column is parsed, the three
optional filters are applied in source order, and dates are written
back as normalized strings. -/
def filter_data (df : List ExpenseRecord) (s e c : Option String) :
    List ExpenseRecord :=
  if df = [] then df
  else ((applyCat c (applyEnd e (applyStart s (datePairs df)))).map projRow)

/-- The effective date bound: `none` unless the argument is truthy and
parses. -/
def effBound : Option String → Option Date
  | none => none
  | some sv => if sv = "" then none else parseDate sv

/-- The effective (lowered) category restriction: `none` when the
argument is falsy or exactly `"All"`. -/
def effCat : Option String → Option String
  | none => none
  | some cv => if cv = "" then none else if cv = "All" then none else some (lowerStr cv)

/-- Combined row-keeping test of the three effective filters. -/
def keepRow (sb eb : Option Date) (cb : Option String)
    (p : ExpenseRecord × Option Date) : Bool :=
  (match sb with | some st => startKeep st p | none => true)
  && ((match eb with | some en => endKeep en p | none => true)
  && (match cb with | some cl => catKeep cl p | none => true))

/-- A record as rewritten by an unrestricted `filter_data` pass: the
date is re-emitted as its normalized string form (or dropped to `none`
when unparsable), category and amount untouched. -/
def normDate (r : ExpenseRecord) : ExpenseRecord :=
  { r with date := (r.date.bind parseDate).map formatDate }

theorem filter_const_true {α : Type} (l : List α) :
    l.filter (fun _ => true) = l := by
  induction l with
  | nil => rfl
  | cons x xs ih => simp [List.filter_cons, ih]

theorem applyStartF (s : Option String)
    (rows : List (ExpenseRecord × Option Date)) :
    applyStart s rows
      = rows.filter (fun p =>
          match effBound s with | some st => startKeep st p | none => true) := by
  cases s with
  | none => exact (filter_const_true rows).symm
  | some sv =>
    by_cases hv : sv = ""
    · simp only [applyStart, effBound, if_pos hv]
      exact (filter_const_true rows).symm
    · simp only [applyStart, effBound, if_neg hv]
      cases hp : parseDate sv with
      | none => exact (filter_const_true rows).symm
      | some st => rfl

theorem applyEndF (e : Option String)
    (rows : List (ExpenseRecord × Option Date)) :
    applyEnd e rows
      = rows.filter (fun p =>
          match effBound e with | some en => endKeep en p | none => true) := by
  cases e with
  | none => exact (filter_const_true rows).symm
  | some ev =>
    by_cases hv : ev = ""
    · simp only [applyEnd, effBound, if_pos hv]
      exact (filter_const_true rows).symm
    · simp only [applyEnd, effBound, if_neg hv]
      cases hp : parseDate ev with
      | none => exact (filter_const_true rows).symm
      | some en => rfl

theorem applyCatF (c : Option String)
    (rows : List (ExpenseRecord × Option Date)) :
    applyCat c rows
      = rows.filter (fun p =>
          match effCat c with | some cl => catKeep cl p | none => true) := by
  cases c with
  | none => exact (filter_const_true rows).symm
  | some cv =>
    by_cases hv : cv = ""
    · simp only [applyCat, effCat, if_pos hv]
      exact (filter_const_true rows).symm
    · by_cases hall : cv = "All"
      · simp only [applyCat, effCat, if_neg hv, if_pos hall]
        exact (filter_const_true rows).symm
      · simp only [applyCat, effCat, if_neg hv, if_neg hall]

theorem map_filter_eq_filterMap {α γ : Type} (q : α → Bool) (h : α → γ)
    (l : List α) :
    (l.filter q).map h = l.filterMap (fun a => if q a then some (h a) else none) := by
  induction l with
  | nil => rfl
  | cons x xs ih =>
    by_cases hq : q x <;> simp [List.filter_cons, List.filterMap_cons, hq, ih]

theorem map_filter3 {α β γ : Type} (pf : α → β) (A B C : β → Bool)
    (g : β → γ) (l : List α) :
    ((((l.map pf).filter A).filter B).filter C).map g
      = l.filterMap (fun a =>
          if A (pf a) && (B (pf a) && C (pf a)) then some (g (pf a)) else none) := by
  rw [List.filter_filter, List.filter_filter, List.filter_map, List.map_map,
    map_filter_eq_filterMap]
  refine congrArg (fun f => List.filterMap f l) (funext fun a => ?_)
  simp only [Function.comp_apply]
  cases hA : A (pf a) <;> cases hB : B (pf a) <;> cases hC : C (pf a) <;>
    simp [hA, hB, hC]

/-- Master characterization of `filter_data`: it keeps exactly the rows
passing the three effective filters, rewritten by `projRow`. -/
theorem filter_data_eq (df : List ExpenseRecord) (s e c : Option String) :
    filter_data df s e c
      = df.filterMap (fun r =>
          if keepRow (effBound s) (effBound e) (effCat c) (r, r.date.bind parseDate)
          then some (projRow (r, r.date.bind parseDate)) else none) := by
  by_cases hdf : df = []
  · subst hdf; rfl
  · unfold filter_data datePairs
    rw [if_neg hdf, applyStartF, applyEndF, applyCatF, map_filter3]
    rfl

theorem parseDate_empty : parseDate "" = none := by decide

theorem effBound_of_parse (s : String) (sd : Date)
    (h : parseDate s = some sd) : effBound (some s) = some sd := by
  simp only [effBound]
  by_cases hs : s = ""
  · subst hs; rw [parseDate_empty] at h; exact absurd h (by simp)
  · rw [if_neg hs, h]

theorem effBound_of_bad (s : String) (h : parseDate s = none) :
    effBound (some s) = none := by
  simp only [effBound]
  by_cases hs : s = ""
  · rw [if_pos hs]
  · rw [if_neg hs, h]

theorem filterMap_all_none {α β : Type} (f : α → Option β) (l : List α)
    (h : ∀ a ∈ l, f a = none) : l.filterMap f = [] := by
  induction l with
  | nil => rfl
  | cons x xs ih =>
    rw [List.filterMap_cons, h x (by simp)]
    exact ih (fun a ha => h a (by simp [ha]))

/-- **C4 (confirmed).** With both bounds parseable, `filter_data`
returns exactly the records whose parseable date lies in the closed
interval `[sd, ed]` and whose category case-insensitively equals the
requested one (no restriction when the category is omitted, falsy, or
the sentinel `"All"`), each record emitted with its normalized date;
and when the start bound lies after the end bound the result is
empty. -/
theorem filter_range_spec (df : List ExpenseRecord) (s e : String)
    (c : Option String) (sd ed : Date)
    (hs : parseDate s = some sd) (he : parseDate e = some ed) :
    filter_data df (some s) (some e) c
      = df.filterMap (fun r =>
          match r.date.bind parseDate with
          | some d =>
            if dateLE sd d && (dateLE d ed
                && (match effCat c with
                    | some cl => lowerStr r.category == cl
                    | none => true))
            then some { r with date := some (formatDate d) } else none
          | none => none)
    ∧ (dateLE sd ed = false → filter_data df (some s) (some e) c = []) := by
  have hmain : filter_data df (some s) (some e) c
      = df.filterMap (fun r =>
          match r.date.bind parseDate with
          | some d =>
            if dateLE sd d && (dateLE d ed
                && (match effCat c with
                    | some cl => lowerStr r.category == cl
                    | none => true))
            then some { r with date := some (formatDate d) } else none
          | none => none) := by
    rw [filter_data_eq, effBound_of_parse s sd hs, effBound_of_parse e ed he]
    refine congrArg (fun f => List.filterMap f df) (funext fun r => ?_)
    cases hr : r.date.bind parseDate with
    | none => simp [keepRow, startKeep, hr]
    | some d => simp [keepRow, startKeep, endKeep, catKeep, projRow, hr]
  refine ⟨hmain, fun hlt => ?_⟩
  rw [hmain]
  apply filterMap_all_none
  intro r _
  cases hd : r.date.bind parseDate with
  | none => simp
  | some d =>
    simp only []
    cases h1 : dateLE sd d with
    | false => simp [h1]
    | true =>
      cases h2 : dateLE d ed with
      | false => simp [h1, h2]
      | true => exact absurd (dateLE_trans h1 h2) (by simp [hlt])

/-- Witness for `filter_range_spec`: a concrete table filtered over
January 2024 with category `"food"` keeps the record stored as
`"Food"` (case-insensitive match) and drops the rest; reversed bounds
give the empty result. -/
theorem filter_range_spec_witness :
    parseDate "2024-01-01" = some ⟨2024, 1, 1⟩
    ∧ parseDate "2024-01-31" = some ⟨2024, 1, 31⟩
    ∧ filter_data
        [⟨some "2024-01-15", "Food", some 10⟩, ⟨some "2024-03-02", "Bills", some 20⟩]
        (some "2024-01-01") (some "2024-01-31") (some "food")
        = [⟨some "2024-01-15", "Food", some 10⟩]
    ∧ filter_data
        [⟨some "2024-01-15", "Food", some 10⟩, ⟨some "2024-03-02", "Bills", some 20⟩]
        (some "2024-02-01") (some "2024-01-01") (some "food") = [] :=
  ⟨by decide, by decide,
   by
    rw [(filter_range_spec
      [⟨some "2024-01-15", "Food", some 10⟩, ⟨some "2024-03-02", "Bills", some 20⟩]
      "2024-01-01" "2024-01-31" (some "food") ⟨2024, 1, 1⟩ ⟨2024, 1, 31⟩
      (by decide) (by decide)).1]
    decide,
   (filter_range_spec
      [⟨some "2024-01-15", "Food", some 10⟩, ⟨some "2024-03-02", "Bills", some 20⟩]
      "2024-02-01" "2024-01-01" (some "food") ⟨2024, 2, 1⟩ ⟨2024, 1, 1⟩
      (by decide) (by decide)).2 (by decide)⟩

theorem effCat_All : effCat (some "All") = none := by decide

theorem effBound_none : effBound none = none := rfl

theorem keepRow_open (p : ExpenseRecord × Option Date) :
    keepRow none none none p = true := rfl

theorem filter_all_eq_map (df : List ExpenseRecord) :
    filter_data df none none (some "All") = df.map normDate := by
  rw [filter_data_eq, effCat_All]
  simp only [effBound_none]
  have hfun : (fun r : ExpenseRecord =>
      if keepRow none none none (r, r.date.bind parseDate)
      then some (projRow (r, r.date.bind parseDate)) else none)
      = fun r => some (normDate r) := by
    refine funext fun r => ?_
    rw [keepRow_open (r, r.date.bind parseDate)]
    rfl
  rw [hfun]
  induction df with
  | nil => rfl
  | cons x xs ih => simp [List.filterMap_cons, ih]

/-- **C6 counterexample.** `filter_data` with no bounds and category
`"All"` is not the identity up to date normalization: a record whose
date does not parse comes back with its date erased to `none` (pandas
`NaT.strftime` gives NaN), not rewritten to a `YYYY-MM-DD` string. -/
theorem filter_all_changes_bad_date :
    filter_data [⟨some "not-a-date", "Misc", some 5⟩] none none (some "All")
      = [⟨none, "Misc", some 5⟩]
    ∧ (⟨none, "Misc", some 5⟩ : ExpenseRecord)
        ≠ ⟨some "not-a-date", "Misc", some 5⟩
    ∧ (∀ str : String, (⟨none, "Misc", some 5⟩ : ExpenseRecord).date ≠ some str) := by
  refine ⟨by decide, by decide, fun str h => by simp at h⟩

/-- **C6 (amended).** `filter_data` with no bounds and category `"All"`
maps each record through `normDate` in order (nothing added, dropped or
reordered): category and amount are untouched, a parseable date is
rewritten to its normalized `YYYY-MM-DD` form, and an unparsable or
missing date is erased to `none`. -/
theorem filter_identity_normalized (df : List ExpenseRecord)
    (r : ExpenseRecord) (d : Date) :
    filter_data df none none (some "All") = df.map normDate
    ∧ (normDate r).category = r.category
    ∧ (normDate r).amount = r.amount
    ∧ (r.date.bind parseDate = some d → (normDate r).date = some (formatDate d))
    ∧ (r.date.bind parseDate = none → (normDate r).date = none) := by
  refine ⟨filter_all_eq_map df, rfl, rfl, fun h => ?_, fun h => ?_⟩
  · simp [normDate, h]
  · simp [normDate, h]

/-- Witness for `filter_identity_normalized` on a concrete table: the
date `"2024-1-5"` is normalized to `"2024-01-05"`, category and amount
survive unchanged. -/
theorem filter_identity_normalized_witness :
    (⟨some "2024-1-5", "X", some 1⟩ : ExpenseRecord).date.bind parseDate
        = some ⟨2024, 1, 5⟩
    ∧ filter_data [⟨some "2024-1-5", "X", some 1⟩] none none (some "All")
        = [⟨some "2024-1-5", "X", some 1⟩].map normDate
    ∧ (normDate ⟨some "2024-1-5", "X", some 1⟩).date
        = some (formatDate ⟨2024, 1, 5⟩)
    ∧ normDate ⟨some "2024-1-5", "X", some 1⟩ = ⟨some "2024-01-05", "X", some 1⟩ :=
  ⟨by decide,
   (filter_identity_normalized [⟨some "2024-1-5", "X", some 1⟩]
     ⟨some "2024-1-5", "X", some 1⟩ ⟨2024, 1, 5⟩).1,
   (filter_identity_normalized [⟨some "2024-1-5", "X", some 1⟩]
     ⟨some "2024-1-5", "X", some 1⟩ ⟨2024, 1, 5⟩).2.2.2.1 (by decide),
   by decide⟩

/-- **C9 counterexample.** It is not true that `filter_data` with
category `"all"` never returns the whole (non-empty) table: on a table
whose records are all stored with category `"all"`, the lowercase
sentinel matches every record and the whole table comes back. -/
theorem filter_lowercase_all_whole_table :
    ([⟨some "2024-01-01", "all", some 5⟩] : List ExpenseRecord) ≠ []
    ∧ filter_data [⟨some "2024-01-01", "all", some 5⟩] none none (some "all")
        = [⟨some "2024-01-01", "all", some 5⟩] := by
  refine ⟨by decide, by decide⟩

/-- **C9 (amended).** The `"All"` sentinel is matched case-sensitively,
unlike the category comparison itself: `"all"` and `"ALL"` do not
disable the category filter — they filter for records whose stored
category case-insensitively equals `"all"` (so the whole table comes
back exactly when every record matches) — while exactly `"All"` applies
no category restriction. -/
theorem filter_sentinel_case_sensitive (df : List ExpenseRecord) :
    filter_data df none none (some "all")
      = df.filterMap (fun r =>
          if lowerStr r.category == "all" then some (normDate r) else none)
    ∧ filter_data df none none (some "ALL")
      = df.filterMap (fun r =>
          if lowerStr r.category == "all" then some (normDate r) else none)
    ∧ filter_data df none none (some "All") = df.map normDate := by
  have key : ∀ cv : String, effCat (some cv) = some "all" →
      filter_data df none none (some cv)
        = df.filterMap (fun r =>
            if lowerStr r.category == "all" then some (normDate r) else none) := by
    intro cv hcv
    rw [filter_data_eq, hcv]
    simp only [effBound_none]
    refine congrArg (fun f => List.filterMap f df) (funext fun r => ?_)
    simp [keepRow, catKeep, projRow, normDate]
  exact ⟨key "all" (by decide), key "ALL" (by decide), filter_all_eq_map df⟩

/-- **C7 (confirmed).** `filter_data` is total and recovers from bad
inputs: an unparsable start or end bound is treated exactly as an
absent bound, and once a parseable bound is present every surviving
record carries a (re-emitted, hence parsed) date — records whose own
date failed to parse have been dropped rather than raising. -/
theorem filter_bad_inputs (df : List ExpenseRecord) (o c : Option String)
    (junk good : String) (gd : Date)
    (hj : parseDate junk = none) (hg : parseDate good = some gd) :
    filter_data df (some junk) o c = filter_data df none o c
    ∧ filter_data df o (some junk) c = filter_data df o none c
    ∧ (∀ r ∈ filter_data df (some good) o c, r.date.isSome)
    ∧ (∀ r ∈ filter_data df o (some good) c, r.date.isSome) := by
  refine ⟨?_, ?_, ?_, ?_⟩
  · rw [filter_data_eq, filter_data_eq, effBound_of_bad junk hj]
    simp only [effBound_none]
  · rw [filter_data_eq, filter_data_eq, effBound_of_bad junk hj]
    simp only [effBound_none]
  · rw [filter_data_eq, effBound_of_parse good gd hg]
    intro r hr
    obtain ⟨a, _, ha⟩ := List.mem_filterMap.mp hr
    by_cases hk : keepRow (some gd) (effBound o) (effCat c)
        (a, a.date.bind parseDate) = true
    · rw [if_pos hk] at ha
      have hstart : startKeep gd (a, a.date.bind parseDate) = true := by
        have := hk
        unfold keepRow at this
        exact (Bool.and_eq_true_iff.mp this).1
      cases hd : a.date.bind parseDate with
      | none => rw [hd] at hstart; exact absurd hstart (by simp [startKeep])
      | some d =>
        have : r = projRow (a, a.date.bind parseDate) := (Option.some_inj.mp ha).symm
        rw [this, hd]
        simp [projRow]
    · rw [if_neg hk] at ha
      exact absurd ha (by simp)
  · rw [filter_data_eq, effBound_of_parse good gd hg]
    intro r hr
    obtain ⟨a, _, ha⟩ := List.mem_filterMap.mp hr
    by_cases hk : keepRow (effBound o) (some gd) (effCat c)
        (a, a.date.bind parseDate) = true
    · rw [if_pos hk] at ha
      have hend : endKeep gd (a, a.date.bind parseDate) = true := by
        have := hk
        unfold keepRow at this
        exact (Bool.and_eq_true_iff.mp (Bool.and_eq_true_iff.mp this).2).1
      cases hd : a.date.bind parseDate with
      | none => rw [hd] at hend; exact absurd hend (by simp [endKeep])
      | some d =>
        have : r = projRow (a, a.date.bind parseDate) := (Option.some_inj.mp ha).symm
        rw [this, hd]
        simp [projRow]
    · rw [if_neg hk] at ha
      exact absurd ha (by simp)

/-- Witness for `filter_bad_inputs` on a concrete table containing a
record with an unparsable date: the bad bound `"junk"` behaves as
absent, and with a good start bound every surviving record has a
(parsed, normalized) date. -/
theorem filter_bad_inputs_witness :
    parseDate "junk" = none
    ∧ parseDate "2024-01-01" = some ⟨2024, 1, 1⟩
    ∧ filter_data [⟨some "2024-01-15", "Food", some 10⟩, ⟨some "bad", "Bills", some 20⟩]
        (some "junk") none none
      = filter_data [⟨some "2024-01-15", "Food", some 10⟩, ⟨some "bad", "Bills", some 20⟩]
        none none none
    ∧ (∀ r ∈ filter_data
        [⟨some "2024-01-15", "Food", some 10⟩, ⟨some "bad", "Bills", some 20⟩]
        (some "2024-01-01") none none, r.date.isSome) :=
  ⟨by decide, by decide,
   (filter_bad_inputs
     [⟨some "2024-01-15", "Food", some 10⟩, ⟨some "bad", "Bills", some 20⟩]
     none none "junk" "2024-01-01" ⟨2024, 1, 1⟩ (by decide) (by decide)).1,
   (filter_bad_inputs
     [⟨some "2024-01-15", "Food", some 10⟩, ⟨some "bad", "Bills", some 20⟩]
     none none "junk" "2024-01-01" ⟨2024, 1, 1⟩ (by decide) (by decide)).2.2.1⟩

/-- Python `round(x, 2)` on the embedded rationals: round to the
nearest hundredth (Mathlib `round`, half away from zero upward; the
tie-breaking mode is irrelevant to every claim checked here). -/
def round2 (x : ℚ) : ℚ := (round (x * 100) : ℤ) / 100

/-- The summary dictionary returned by `compute_summary`
(`by_category` as an ordered association list, the embedding of the
sorted pandas Series of line 152). -/
structure Summary where
  total : ℚ
  average : ℚ
  max : ℚ
  count : Nat
  by_category : List (String × ℚ)
deriving DecidableEq, Repr

/-- The non-null amounts of a table (pandas skips NaN in `sum`,
`count` and `max`). -/
def amounts (df : List ExpenseRecord) : List ℚ :=
  df.filterMap (fun r => r.amount)

/-- `df.groupby("category")["amount"].sum()` for one category: the sum
of the non-null amounts of the rows with that exact category (an
all-NaN group sums to 0.0). -/
def catSum (df : List ExpenseRecord) (c : String) : ℚ :=
  ((df.filter (fun r => r.category == c)).filterMap (fun r => r.amount)).sum

/-- `max()` over the non-null amounts, seeded at the first one (only
used when at least one non-null amount exists). -/
def maxQ : List ℚ → ℚ
  | [] => 0
  | q :: t => t.foldl max q

/-- Lexicographic comparison of character lists by code point. -/
def charListLe : List Char → List Char → Bool
  | [], _ => true
  | _ :: _, [] => false
  | a :: as, b :: bs =>
    if a.toNat < b.toNat then true
    else if b.toNat < a.toNat then false
    else charListLe as bs

/-- Lexicographic string order (the order pandas `groupby` emits its
group keys in). -/
def strLeR (a b : String) : Prop := charListLe a.data b.data = true

instance : DecidableRel strLeR :=
  fun a b => inferInstanceAs (Decidable (charListLe a.data b.data = true))

/-- Descending-by-amount order used by
`.sort_values(ascending=False)`. -/
def byAmtGE (p q : String × ℚ) : Prop := q.2 ≤ p.2

instance : DecidableRel byAmtGE :=
  fun p q => inferInstanceAs (Decidable (q.2 ≤ p.2))

instance : IsTotal (String × ℚ) byAmtGE := ⟨fun a b => le_total b.2 a.2⟩

instance : IsTrans (String × ℚ) byAmtGE := ⟨fun _ _ _ h₁ h₂ => le_trans h₂ h₁⟩

/-- Line 152: group by category (pandas emits group keys sorted
ascending), sum each group, then sort descending by the summed amount.
Ties are modelled with a stable sort. -/
def byCategory (df : List ExpenseRecord) : List (String × ℚ) :=
  List.insertionSort byAmtGE
    ((List.insertionSort strLeR (df.map (fun r => r.category)).dedup).map
      (fun ct => (ct, catSum df ct)))

/-- `compute_summary` (lines 125-161) for an explicitly passed table:
all-zero stats on the empty table; otherwise `total`, `average` and
`max` are rounded to 2 decimals while the `by_category` sums are
emitted raw (line 153 applies no rounding). -/
def compute_summary (df : List ExpenseRecord) : Summary :=
  if df = [] then ⟨0, 0, 0, 0, []⟩
  else
    ⟨round2 (amounts df).sum,
     round2 (if (amounts df).length = 0 then 0
             else (amounts df).sum / ((amounts df).length : ℚ)),
     round2 (if (amounts df).length = 0 then 0 else maxQ (amounts df)),
     (amounts df).length,
     byCategory df⟩

theorem round2_zero : round2 0 = 0 := by
  norm_num [round2, round_eq]

theorem le_foldl_max (t : List ℚ) : ∀ q : ℚ, q ≤ t.foldl max q := by
  induction t with
  | nil => exact fun q => le_refl q
  | cons y t ih => exact fun q => le_trans (le_max_left q y) (ih (max q y))

theorem mem_le_foldl_max (t : List ℚ) :
    ∀ (q x : ℚ), x ∈ t → x ≤ t.foldl max q := by
  induction t with
  | nil => intro q x hx; exact absurd hx (by simp)
  | cons y t ih =>
    intro q x hx
    rcases List.mem_cons.mp hx with h | h
    · subst h
      exact le_trans (le_max_right q x) (le_foldl_max t (max q x))
    · exact ih (max q y) x h

theorem foldl_max_mem (t : List ℚ) :
    ∀ q : ℚ, t.foldl max q = q ∨ t.foldl max q ∈ t := by
  induction t with
  | nil => exact fun q => Or.inl rfl
  | cons y t ih =>
    intro q
    rcases ih (max q y) with h | h
    · rcases max_choice q y with hm | hm
      · exact Or.inl (by rw [List.foldl_cons, h, hm])
      · exact Or.inr (by rw [List.foldl_cons, h, hm]; exact List.mem_cons_self y t)
    · exact Or.inr (List.mem_cons_of_mem y h)

theorem compute_summary_of_ne (df : List ExpenseRecord) (h : df ≠ []) :
    compute_summary df
      = ⟨round2 (amounts df).sum,
         round2 (if (amounts df).length = 0 then 0
                 else (amounts df).sum / ((amounts df).length : ℚ)),
         round2 (if (amounts df).length = 0 then 0 else maxQ (amounts df)),
         (amounts df).length,
         byCategory df⟩ := by
  rw [compute_summary, if_neg h]

theorem mem_byCategory (df : List ExpenseRecord) (p : String × ℚ) :
    p ∈ byCategory df
      ↔ p.1 ∈ df.map (fun r => r.category) ∧ p.2 = catSum df p.1 := by
  unfold byCategory
  rw [(List.perm_insertionSort byAmtGE _).mem_iff, List.mem_map]
  constructor
  · rintro ⟨ct, hct, rfl⟩
    rw [(List.perm_insertionSort strLeR _).mem_iff, List.mem_dedup] at hct
    exact ⟨hct, rfl⟩
  · rintro ⟨h1, h2⟩
    refine ⟨p.1, ?_, ?_⟩
    · rw [(List.perm_insertionSort strLeR _).mem_iff, List.mem_dedup]
      exact h1
    · rw [← h2]

/-- **C3 counterexample.** Not every monetary output of
`compute_summary` is rounded to 2 decimal places: a category amount of
`10.005` is emitted in `by_category` exactly as its raw sum, which is
not equal to any value rounded to 2 decimals (line 153 of the source
applies no rounding), while the same amount is rounded in `total`. -/
theorem summary_unrounded_by_category :
    (compute_summary [⟨some "2024-01-01", "Food", some (2001/200)⟩]).by_category
      = [("Food", 2001/200)]
    ∧ round2 (2001/200) ≠ (2001/200 : ℚ)
    ∧ (compute_summary [⟨some "2024-01-01", "Food", some (2001/200)⟩]).total
      = round2 (2001/200) := by
  refine ⟨?_, ?_, ?_⟩
  · norm_num [compute_summary, byCategory, amounts, catSum, List.insertionSort,
      List.orderedInsert, List.filterMap_cons, List.filter, List.dedup]
  · norm_num [round2, round_eq]
  · norm_num [compute_summary, amounts, List.filterMap_cons]

/-- **C3 (amended).** `compute_summary` of the empty table is all-zero
with an empty category map; otherwise `total` is the rounded sum of the
non-null amounts, `count` their number, `average` the rounded
`total/count` (0 when `count` is 0), `max` the rounded maximum non-null
amount (0 when there is none), and `by_category` maps each category of
the table to its raw (NOT rounded) summed amount, sorted descending by
that sum.  The rounding to 2 decimals applies to `total`, `average` and
`max` only — not to the `by_category` values. -/
theorem summary_spec :
    compute_summary [] = ⟨0, 0, 0, 0, []⟩
    ∧ (∀ df : List ExpenseRecord, df ≠ [] →
        (compute_summary df).total = round2 (amounts df).sum
        ∧ (compute_summary df).count = (amounts df).length
        ∧ (compute_summary df).average
            = round2 (if (amounts df).length = 0 then 0
                      else (amounts df).sum / ((amounts df).length : ℚ))
        ∧ (amounts df = [] → (compute_summary df).max = 0)
        ∧ (amounts df ≠ [] →
            (compute_summary df).max = round2 (maxQ (amounts df))
            ∧ maxQ (amounts df) ∈ amounts df
            ∧ (∀ x ∈ amounts df, x ≤ maxQ (amounts df)))
        ∧ List.Sorted byAmtGE (compute_summary df).by_category
        ∧ (∀ p : String × ℚ, p ∈ (compute_summary df).by_category
            ↔ p.1 ∈ df.map (fun r => r.category) ∧ p.2 = catSum df p.1)) := by
  refine ⟨rfl, fun df hdf => ?_⟩
  rw [compute_summary_of_ne df hdf]
  refine ⟨rfl, rfl, rfl, fun hemp => ?_, fun hne => ?_, ?_, ?_⟩
  · simp only [hemp, List.length_nil, if_pos rfl]
    exact round2_zero
  · have hlen : (amounts df).length ≠ 0 := fun h => hne (List.length_eq_zero.mp h)
    refine ⟨by simp only [if_neg hlen], ?_, ?_⟩
    · rcases hq : amounts df with _ | ⟨q, t⟩
      · exact absurd hq hne
      · simp only [maxQ]
        rcases foldl_max_mem t q with h | h
        · rw [h]; exact List.mem_cons_self q t
        · exact List.mem_cons_of_mem q h
    · intro x hx
      rcases hq : amounts df with _ | ⟨q, t⟩
      · rw [hq] at hx; exact absurd hx (by simp)
      · rw [hq] at hx
        simp only [maxQ]
        rcases List.mem_cons.mp hx with h | h
        · subst h; exact le_foldl_max t x
        · exact mem_le_foldl_max t q x h
  · exact List.sorted_insertionSort byAmtGE _
  · exact fun p => mem_byCategory df p

/-- Witness for `summary_spec` on a concrete two-record table:
`{Food: 50, Bills: 80}` lists `Bills` before `Food` (descending by
sum), and total is `130`. -/
theorem summary_spec_witness :
    ([⟨some "2024-01-05", "Food", some 50⟩,
      ⟨some "2024-01-06", "Bills", some 80⟩] : List ExpenseRecord) ≠ []
    ∧ (compute_summary [⟨some "2024-01-05", "Food", some 50⟩,
        ⟨some "2024-01-06", "Bills", some 80⟩]).total
      = round2 (amounts [⟨some "2024-01-05", "Food", some 50⟩,
          ⟨some "2024-01-06", "Bills", some 80⟩]).sum
    ∧ (compute_summary [⟨some "2024-01-05", "Food", some 50⟩,
        ⟨some "2024-01-06", "Bills", some 80⟩]).by_category
      = [("Bills", 80), ("Food", 50)]
    ∧ (compute_summary [⟨some "2024-01-05", "Food", some 50⟩,
        ⟨some "2024-01-06", "Bills", some 80⟩]).total = 130 :=
  ⟨by decide,
   (summary_spec.2 [⟨some "2024-01-05", "Food", some 50⟩,
      ⟨some "2024-01-06", "Bills", some 80⟩] (by decide)).1,
   by
    rw [compute_summary_of_ne _ (by decide)]
    simp +decide only [byCategory, catSum, List.insertionSort, List.orderedInsert,
      List.filter_cons, List.filterMap_cons, List.dedup_cons_of_not_mem,
      List.dedup_nil, List.not_mem_nil, List.mem_singleton, byAmtGE, strLeR,
      charListLe, List.map_cons, List.map_nil, List.sum_cons, List.sum_nil,
      List.filter_nil, List.filterMap_nil, add_zero]
    norm_num [List.filterMap_cons, List.filterMap_nil, List.sum_cons, List.sum_nil],
   by
    rw [compute_summary_of_ne _ (by decide)]
    norm_num [amounts, List.filterMap_cons, round2, round_eq]⟩

/-- **C10 (confirmed).** `compute_summary` is total, and on a table
whose every amount is null the guarded division and maximum return 0:
`count = 0`, `average = 0`, `max = 0`, `total = 0` (pandas sums an
all-NaN column to 0.0). -/
theorem summary_all_null (df : List ExpenseRecord)
    (h : ∀ r ∈ df, r.amount = none) :
    (compute_summary df).average = 0
    ∧ (compute_summary df).max = 0
    ∧ (compute_summary df).count = 0
    ∧ (compute_summary df).total = 0 := by
  have hamt : amounts df = [] := by
    apply filterMap_all_none
    exact h
  by_cases hdf : df = []
  · subst hdf
    exact ⟨rfl, rfl, rfl, rfl⟩
  · rw [compute_summary_of_ne df hdf]
    refine ⟨?_, ?_, ?_, ?_⟩
    · simp only [hamt, List.length_nil, if_pos rfl]
      exact round2_zero
    · simp only [hamt, List.length_nil, if_pos rfl]
      exact round2_zero
    · simp only [hamt, List.length_nil]
    · simp only [hamt, List.sum_nil]
      exact round2_zero

/-- Witness for `summary_all_null` on a concrete non-empty table with
only null amounts. -/
theorem summary_all_null_witness :
    (∀ r ∈ ([⟨some "2024-01-01", "X", none⟩,
        ⟨some "2024-02-01", "Y", none⟩] : List ExpenseRecord), r.amount = none)
    ∧ ((compute_summary [⟨some "2024-01-01", "X", none⟩,
          ⟨some "2024-02-01", "Y", none⟩]).average = 0
       ∧ (compute_summary [⟨some "2024-01-01", "X", none⟩,
            ⟨some "2024-02-01", "Y", none⟩]).max = 0
       ∧ (compute_summary [⟨some "2024-01-01", "X", none⟩,
            ⟨some "2024-02-01", "Y", none⟩]).count = 0
       ∧ (compute_summary [⟨some "2024-01-01", "X", none⟩,
            ⟨some "2024-02-01", "Y", none⟩]).total = 0) :=
  ⟨by decide,
   summary_all_null [⟨some "2024-01-01", "X", none⟩,
     ⟨some "2024-02-01", "Y", none⟩] (by decide)⟩

/-- Ascending order on `(year, month)` keys (pandas `sort_index` over
monthly periods). -/
def monthLE (a b : Nat × Nat) : Prop :=
  a.1 < b.1 ∨ (a.1 = b.1 ∧ a.2 ≤ b.2)

instance : DecidableRel monthLE :=
  fun a b => inferInstanceAs (Decidable (a.1 < b.1 ∨ (a.1 = b.1 ∧ a.2 ≤ b.2)))

/-- Group rows (already reduced to month key and optional amount) by
month, sum each group skipping nulls, and sort ascending by month:
the `groupby("month")["amount"].sum().sort_index()` of line 176. -/
def monthlyGroups (parsed : List ((Nat × Nat) × Option ℚ)) :
    List ((Nat × Nat) × ℚ) :=
  if parsed = [] then []
  else
    (List.insertionSort monthLE (parsed.map Prod.fst).dedup).map
      (fun m => (m, ((parsed.filter (fun p => p.1 == m)).filterMap Prod.snd).sum))

/-- `_monthly_totals` (lines 164-177): empty in, empty out; otherwise
parse the dates, drop rows whose date fails to parse
(`dropna(subset=["date"])`), reduce each to its `(year, month)` key,
and group. -/
def _monthly_totals (df : List ExpenseRecord) : List ((Nat × Nat) × ℚ) :=
  if df = [] then []
  else
    monthlyGroups (df.filterMap (fun r =>
      (r.date.bind parseDate).map (fun d => ((d.year, d.month), r.amount))))

/-- Sum of the month indices `k, k+1, …, k+n-1`. -/
def xsum : Nat → Nat → ℚ
  | _, 0 => 0
  | k, n + 1 => (k : ℚ) + xsum (k + 1) n

/-- Sum of the squared month indices. -/
def x2sum : Nat → Nat → ℚ
  | _, 0 => 0
  | k, n + 1 => (k : ℚ) * k + x2sum (k + 1) n

/-- Index-weighted sum `Σ (k+j) * ys_j`. -/
def ixsum : Nat → List ℚ → ℚ
  | _, [] => 0
  | k, y :: t => (k : ℚ) * y + ixsum (k + 1) t

/-- Denominator `n·Σx² - (Σx)²` of the closed-form OLS slope. -/
def olsDenom (ys : List ℚ) : ℚ :=
  (ys.length : ℚ) * x2sum 0 ys.length - xsum 0 ys.length * xsum 0 ys.length

/-- Closed-form OLS slope over the points `(i, ys_i)`, `i = 0…n-1`:
the exact-arithmetic embedding of `LinearRegression().fit(X, y)`
(lines 209-213). -/
def olsB (ys : List ℚ) : ℚ :=
  ((ys.length : ℚ) * ixsum 0 ys - xsum 0 ys.length * ys.sum) / olsDenom ys

/-- Closed-form OLS intercept. -/
def olsA (ys : List ℚ) : ℚ :=
  (ys.sum - olsB ys * xsum 0 ys.length) / (ys.length : ℚ)

/-- The fitted line evaluated at the next index `n`
(`model.predict([[len(monthly)]])`, line 216). -/
def olsPredict (ys : List ℚ) : ℚ :=
  olsA ys + olsB ys * (ys.length : ℚ)

/-- Residuals `ys_j - (a + b·(k+j))` of a candidate line. -/
def residuals (a b : ℚ) : Nat → List ℚ → List ℚ
  | _, [] => []
  | k, y :: t => (y - (a + b * (k : ℚ))) :: residuals a b (k + 1) t

/-- The prediction branch structure of `predict_next_month`
(lines 195-217): absent on no months, rounded carry-forward on one,
rounded OLS extrapolation on two or more. -/
def predictFromMonthly (ms : List ((Nat × Nat) × ℚ)) : Option ℚ :=
  match ms with
  | [] => none
  | [m] => some (round2 m.2)
  | _ => some (round2 (olsPredict (ms.map Prod.snd)))

/-- `predict_next_month` (lines 180-233), prediction component; the
advice strings are presentation text and not modelled. -/
def predict_next_month (df : List ExpenseRecord) : Option ℚ :=
  predictFromMonthly (_monthly_totals df)

theorem residuals_sum (a b : ℚ) (ys : List ℚ) : ∀ k : Nat,
    (residuals a b k ys).sum
      = ys.sum - (ys.length : ℚ) * a - b * xsum k ys.length := by
  induction ys with
  | nil => intro k; simp [residuals, xsum]
  | cons y t ih =>
    intro k
    simp only [residuals, List.sum_cons, List.length_cons, xsum, ih (k + 1)]
    push_cast
    ring

theorem residuals_ixsum (a b : ℚ) (ys : List ℚ) : ∀ k : Nat,
    ixsum k (residuals a b k ys)
      = ixsum k ys - a * xsum k ys.length - b * x2sum k ys.length := by
  induction ys with
  | nil => intro k; simp [residuals, ixsum, xsum, x2sum]
  | cons y t ih =>
    intro k
    simp only [residuals, ixsum, List.length_cons, xsum, x2sum, ih (k + 1)]
    ring

theorem xsum_closed (n : Nat) : ∀ k : Nat,
    2 * xsum k n = (n : ℚ) * (2 * (k : ℚ) + (n : ℚ) - 1) := by
  induction n with
  | zero => intro k; simp [xsum]
  | succ n ih =>
    intro k
    simp only [xsum]
    have h := ih (k + 1)
    push_cast at h ⊢
    linear_combination h

theorem x2sum_closed (n : Nat) : ∀ k : Nat,
    6 * x2sum k n
      = (n : ℚ) * (6 * (k : ℚ) * k + 6 * k * ((n : ℚ) - 1)
          + ((n : ℚ) - 1) * (2 * n - 1)) := by
  induction n with
  | zero => intro k; simp [x2sum]
  | succ n ih =>
    intro k
    simp only [x2sum]
    have h := ih (k + 1)
    push_cast at h ⊢
    linear_combination h

theorem olsDenom_closed (ys : List ℚ) :
    12 * olsDenom ys
      = (ys.length : ℚ) * ys.length * ((ys.length : ℚ) - 1)
          * ((ys.length : ℚ) + 1) := by
  have e1 : 2 * xsum 0 ys.length
      = (ys.length : ℚ) * ((ys.length : ℚ) - 1) := by
    have h := xsum_closed ys.length 0
    push_cast at h
    linear_combination h
  have e2 : 6 * x2sum 0 ys.length
      = (ys.length : ℚ) * ((ys.length : ℚ) - 1) * (2 * (ys.length : ℚ) - 1) := by
    have h := x2sum_closed ys.length 0
    push_cast at h
    linear_combination h
  unfold olsDenom
  linear_combination
    (-3 * (2 * xsum 0 ys.length + (ys.length : ℚ) * ((ys.length : ℚ) - 1))) * e1
    + (2 * (ys.length : ℚ)) * e2

theorem olsDenom_ne (ys : List ℚ) (h : 2 ≤ ys.length) : olsDenom ys ≠ 0 := by
  have hn : (2 : ℚ) ≤ (ys.length : ℚ) := by exact_mod_cast h
  intro h0
  have h12 := olsDenom_closed ys
  rw [h0, mul_zero] at h12
  have a : (0 : ℚ) < (ys.length : ℚ) := by linarith
  have b : (0 : ℚ) < (ys.length : ℚ) - 1 := by linarith
  have c : (0 : ℚ) < (ys.length : ℚ) + 1 := by linarith
  have hpos : (0 : ℚ) < (ys.length : ℚ) * ys.length * ((ys.length : ℚ) - 1)
      * ((ys.length : ℚ) + 1) := mul_pos (mul_pos (mul_pos a a) b) c
  rw [← h12] at hpos
  exact lt_irrefl 0 hpos

/-- The closed-form coefficients satisfy the OLS normal equations:
residuals sum to zero, and index-weighted residuals sum to zero.
Together these characterize `olsA`/`olsB` as the least-squares fit. -/
theorem ols_normal_eq (ys : List ℚ) (h : 2 ≤ ys.length) :
    (residuals (olsA ys) (olsB ys) 0 ys).sum = 0
    ∧ ixsum 0 (residuals (olsA ys) (olsB ys) 0 ys) = 0 := by
  have hn : ((ys.length : ℚ)) ≠ 0 := by
    have : (2 : ℚ) ≤ (ys.length : ℚ) := by exact_mod_cast h
    linarith
  have hd : olsDenom ys ≠ 0 := olsDenom_ne ys h
  constructor
  · rw [residuals_sum]
    unfold olsA
    field_simp
  · rw [residuals_ixsum]
    unfold olsA olsB olsDenom
    unfold olsDenom at hd
    field_simp
    ring

/-- **C2 (amended).** `predict_next_month` returns: an absent
prediction on zero monthly totals; on exactly one month, that month's
total ROUNDED TO 2 DECIMALS (the claim omits the rounding, which the
code applies at line 206); on `n ≥ 2` months, the closed-form
ordinary-least-squares line over `(i, total_i)` evaluated at index `n`
and rounded to 2 decimals.  The closed-form coefficients satisfy the
OLS normal equations, and on two months `y0, y1` the prediction before
rounding is `y1 + (y1 - y0)`. -/
theorem predict_spec (df : List ExpenseRecord) :
    (_monthly_totals df = [] → predict_next_month df = none)
    ∧ (∀ m, _monthly_totals df = [m] → predict_next_month df = some (round2 m.2))
    ∧ (2 ≤ (_monthly_totals df).length →
        predict_next_month df
          = some (round2 (olsPredict ((_monthly_totals df).map Prod.snd))))
    ∧ (∀ ys : List ℚ, 2 ≤ ys.length →
        (residuals (olsA ys) (olsB ys) 0 ys).sum = 0
        ∧ ixsum 0 (residuals (olsA ys) (olsB ys) 0 ys) = 0)
    ∧ (∀ y0 y1 : ℚ, olsPredict [y0, y1] = y1 + (y1 - y0)) := by
  refine ⟨?_, ?_, ?_, ols_normal_eq, ?_⟩
  · intro h
    unfold predict_next_month
    rw [h]
    rfl
  · intro m h
    unfold predict_next_month
    rw [h]
    rfl
  · intro h
    unfold predict_next_month
    rcases hm : _monthly_totals df with _ | ⟨a, _ | ⟨b, t⟩⟩
    · rw [hm] at h; simp at h
    · rw [hm] at h; simp at h
    · rfl
  · intro y0 y1
    unfold olsPredict olsA olsB olsDenom
    norm_num [xsum, x2sum, ixsum]
    ring

theorem c2_monthly_eval :
    _monthly_totals [⟨some "2024-01-15", "Food", some (5003/500)⟩]
      = [((2024, 1), 5003/500)] := by
  have hd : parseDate "2024-01-15" = some ⟨2024, 1, 15⟩ := by decide
  have e1 : ([⟨some "2024-01-15", "Food", some (5003/500)⟩] :
      List ExpenseRecord).filterMap (fun r =>
        (r.date.bind parseDate).map (fun d => ((d.year, d.month), r.amount)))
      = [((2024, 1), some (5003/500))] := by
    simp [List.filterMap_cons, hd]
  unfold _monthly_totals
  rw [if_neg (by decide), e1]
  unfold monthlyGroups
  rw [if_neg (by decide)]
  simp +decide [List.insertionSort, List.orderedInsert, List.filter_cons,
    List.filterMap_cons, List.dedup_cons_of_not_mem, List.dedup_nil,
    List.not_mem_nil]

/-- **C2 counterexample.** On exactly one month, `predict_next_month`
does NOT return that month's total: a single month totalling `10.006`
(= 5003/500) yields the rounded prediction `10.01` (= 1001/100), which
differs from the total. -/
theorem predict_single_month_rounds :
    _monthly_totals [⟨some "2024-01-15", "Food", some (5003/500)⟩]
      = [((2024, 1), 5003/500)]
    ∧ predict_next_month [⟨some "2024-01-15", "Food", some (5003/500)⟩]
      = some (1001/100)
    ∧ ((1001 : ℚ)/100) ≠ 5003/500 := by
  refine ⟨c2_monthly_eval, ?_, by norm_num⟩
  unfold predict_next_month
  rw [c2_monthly_eval]
  show some (round2 (5003/500)) = some (1001/100)
  norm_num [round2, round_eq]

theorem c2w_monthly_eval :
    _monthly_totals [⟨some "2024-01-10", "A", some 100⟩,
        ⟨some "2024-02-10", "B", some 200⟩]
      = [((2024, 1), 100), ((2024, 2), 200)] := by
  have hd1 : parseDate "2024-01-10" = some ⟨2024, 1, 10⟩ := by decide
  have hd2 : parseDate "2024-02-10" = some ⟨2024, 2, 10⟩ := by decide
  have e1 : ([⟨some "2024-01-10", "A", some 100⟩,
      ⟨some "2024-02-10", "B", some 200⟩] :
      List ExpenseRecord).filterMap (fun r =>
        (r.date.bind parseDate).map (fun d => ((d.year, d.month), r.amount)))
      = [((2024, 1), some 100), ((2024, 2), some 200)] := by
    simp [List.filterMap_cons, hd1, hd2]
  unfold _monthly_totals
  rw [if_neg (by decide), e1]
  unfold monthlyGroups
  rw [if_neg (by decide)]
  simp +decide [List.insertionSort, List.orderedInsert, List.filter_cons,
    List.filterMap_cons, List.dedup_cons_of_not_mem, List.dedup_nil,
    List.not_mem_nil, List.mem_singleton, monthLE]

/-- Witness for `predict_spec`: monthly totals `100` then `200` give
the OLS prediction `300`, and the fitted line's residuals on
`[100, 200]` sum to zero. -/
theorem predict_spec_witness :
    2 ≤ (_monthly_totals [⟨some "2024-01-10", "A", some 100⟩,
          ⟨some "2024-02-10", "B", some 200⟩]).length
    ∧ predict_next_month [⟨some "2024-01-10", "A", some 100⟩,
        ⟨some "2024-02-10", "B", some 200⟩] = some 300
    ∧ (residuals (olsA [100, 200]) (olsB [100, 200]) 0 [100, 200]).sum = 0 :=
  ⟨by rw [c2w_monthly_eval]; decide,
   by
    have h := (predict_spec [⟨some "2024-01-10", "A", some 100⟩,
        ⟨some "2024-02-10", "B", some 200⟩]).2.2.1
      (by rw [c2w_monthly_eval]; decide)
    rw [h, c2w_monthly_eval]
    have h2 := (predict_spec [⟨some "2024-01-10", "A", some 100⟩,
        ⟨some "2024-02-10", "B", some 200⟩]).2.2.2.2 100 200
    show some (round2 (olsPredict [100, 200])) = some 300
    rw [h2]
    norm_num [round2, round_eq],
   ((predict_spec [⟨some "2024-01-10", "A", some 100⟩,
        ⟨some "2024-02-10", "B", some 200⟩]).2.2.2.1 [100, 200] (by decide)).1⟩

/-- A column cell of the working frame inside the analysis functions:
a string/object cell (`none` = NaN) or a datetime cell (`none` = NaT),
reflecting the dtype change performed by `pd.to_datetime`. -/
inductive Cell where
  | str : Option String → Cell
  | dt : Option Date → Cell
deriving DecidableEq

/-- A row of the working frame, with the `month` column that
`_monthly_totals` adds (absent, `none`, until assigned). -/
structure HRow where
  date : Cell
  category : String
  amount : Option ℚ
  month : Option (Nat × Nat) := none
deriving DecidableEq

/-- Read a cell as a date (`pd.to_datetime` on either dtype). -/
def cellParse : Cell → Option Date
  | Cell.str (some sv) => parseDate sv
  | Cell.str none => none
  | Cell.dt d => d

/-- A Python local variable holding a DataFrame: either it is the very
object the caller passed in (`sameAsCaller = true`) or a distinct
object.  `val` is the current contents of the object it refers to. -/
structure DfObj where
  sameAsCaller : Bool
  val : List HRow

/-- `df.copy()`: a fresh object with the same contents; writes to it
can no longer reach the caller's object. -/
def copyDf (v : DfObj) : DfObj := ⟨false, v.val⟩

/-- Rebinding a local to a derived frame (`df = df[mask]`,
`d = d.dropna(...)`): pandas filtering allocates a new object, so the
local stops referring to the caller's object. -/
def derive (v : DfObj) (f : List HRow → List HRow) : DfObj := ⟨false, f v.val⟩

/-- An in-place column assignment `df[col] = ...` through a local:
the object the local refers to is mutated, and if that object is the
caller's, the caller's contents (the second component) change too. -/
def writeFrame (v : DfObj) (st : List HRow) (f : List HRow → List HRow) :
    DfObj × List HRow :=
  (⟨v.sameAsCaller, f v.val⟩, if v.sameAsCaller then f v.val else st)

theorem writeFrame_snd (v : DfObj) (st : List HRow)
    (f : List HRow → List HRow) (h : v.sameAsCaller = false) :
    (writeFrame v st f).2 = st := by
  simp [writeFrame, h]

/-- The first statement of `filter_data` / `_monthly_totals` acting on
a nonempty frame: `df = df.copy(); df["date"] = pd.to_datetime(...)` —
a write through a local that was just rebound to a copy. -/
def parseDateWrite (st : List HRow) : DfObj × List HRow :=
  writeFrame (copyDf ⟨true, st⟩) st
    (fun fr => fr.map (fun r => { r with date := Cell.dt (cellParse r.date) }))

theorem parseDateWrite_snd (st : List HRow) : (parseDateWrite st).2 = st :=
  writeFrame_snd _ _ _ rfl

theorem parseDateWrite_flag (st : List HRow) :
    (parseDateWrite st).1.sameAsCaller = false := rfl

/-- Lines 107-110 as object operations: `df = df[df["date"] >= start]`
rebinds the local to a derived frame. -/
def stStart (s : Option String) (v : DfObj) : DfObj :=
  match s with
  | none => v
  | some sv =>
    if sv = "" then v
    else
      match parseDate sv with
      | some st => derive v (fun fr => fr.filter (fun r =>
          match cellParse r.date with
          | some d => dateLE st d
          | none => false))
      | none => v

/-- Lines 112-115 as object operations. -/
def stEnd (e : Option String) (v : DfObj) : DfObj :=
  match e with
  | none => v
  | some ev =>
    if ev = "" then v
    else
      match parseDate ev with
      | some en => derive v (fun fr => fr.filter (fun r =>
          match cellParse r.date with
          | some d => dateLE d en
          | none => false))
      | none => v

/-- Lines 117-118 as object operations. -/
def stCat (c : Option String) (v : DfObj) : DfObj :=
  match c with
  | none => v
  | some cv =>
    if cv = "" then v
    else if cv = "All" then v
    else derive v (fun fr => fr.filter (fun r =>
      lowerStr r.category == lowerStr cv))

theorem stStart_flag (s : Option String) (v : DfObj)
    (h : v.sameAsCaller = false) : (stStart s v).sameAsCaller = false := by
  cases s with
  | none => exact h
  | some sv =>
    by_cases hv : sv = ""
    · simp only [stStart, if_pos hv]; exact h
    · simp only [stStart, if_neg hv]
      cases parseDate sv with
      | none => exact h
      | some st => rfl

theorem stEnd_flag (e : Option String) (v : DfObj)
    (h : v.sameAsCaller = false) : (stEnd e v).sameAsCaller = false := by
  cases e with
  | none => exact h
  | some ev =>
    by_cases hv : ev = ""
    · simp only [stEnd, if_pos hv]; exact h
    · simp only [stEnd, if_neg hv]
      cases parseDate ev with
      | none => exact h
      | some en => rfl

theorem stCat_flag (c : Option String) (v : DfObj)
    (h : v.sameAsCaller = false) : (stCat c v).sameAsCaller = false := by
  cases c with
  | none => exact h
  | some cv =>
    by_cases hv : cv = ""
    · simp only [stCat, if_pos hv]; exact h
    · by_cases hall : cv = "All"
      · simp only [stCat, if_neg hv, if_pos hall]; exact h
      · simp only [stCat, if_neg hv, if_neg hall]
        rfl

/-- `filter_data` (lines 86-122) as a state transformer on the
caller's table object: returns the filtered rows together with what
the caller's object holds after the call.  The early return on an
empty frame hands the caller's object back untouched; otherwise every
column write happens after the `df.copy()` of line 104. -/
def filter_data_st (st : List HRow) (s e c : Option String) :
    List HRow × List HRow :=
  if st = [] then (st, st)
  else
    ((writeFrame (stCat c (stEnd e (stStart s (parseDateWrite st).1)))
        (parseDateWrite st).2
        (fun fr => fr.map (fun r =>
          { r with date := Cell.str ((cellParse r.date).map formatDate) }))).1.val,
     (writeFrame (stCat c (stEnd e (stStart s (parseDateWrite st).1)))
        (parseDateWrite st).2
        (fun fr => fr.map (fun r =>
          { r with date := Cell.str ((cellParse r.date).map formatDate) }))).2)

/-- A working-frame row read back as a plain record (dates re-emitted
as strings); `compute_summary` only reads `category` and `amount`. -/
def cellStr : Cell → Option String
  | Cell.str so => so
  | Cell.dt d => d.map formatDate

def hRowToRec (r : HRow) : ExpenseRecord :=
  ⟨cellStr r.date, r.category, r.amount⟩

/-- `compute_summary` (lines 125-161) as a state transformer: its body
performs no column assignment at all (it only reads `df["amount"]` and
groups), so the caller's object is returned unchanged. -/
def compute_summary_st (st : List HRow) : Summary × List HRow :=
  (compute_summary (st.map hRowToRec), st)

/-- `d = d.dropna(subset=["date"])` (line 171): a rebinding to a
derived frame. -/
def dropnaDates (v : DfObj) : DfObj :=
  derive v (fun fr => fr.filter (fun r => (cellParse r.date).isSome))

/-- `d["month"] = d["date"].dt.to_period("M")` (line 175): a column
write through the local. -/
def monthWrite (v : DfObj) (st2 : List HRow) : DfObj × List HRow :=
  writeFrame v st2 (fun fr => fr.map (fun r =>
    { r with month := (cellParse r.date).map (fun d => (d.year, d.month)) }))

/-- `_monthly_totals` (lines 164-177) as a state transformer on the
caller's table object: copy, convert dates, drop unparsable dates,
add the month column, group — every write lands on the copy. -/
def _monthly_totals_st (st : List HRow) :
    List ((Nat × Nat) × ℚ) × List HRow :=
  if st = [] then ([], st)
  else
    if (dropnaDates (parseDateWrite st).1).val = [] then
      ([], (parseDateWrite st).2)
    else
      (monthlyGroups
        (((monthWrite (dropnaDates (parseDateWrite st).1)
            (parseDateWrite st).2).1.val).filterMap
          (fun r => r.month.map (fun m => (m, r.amount)))),
       (monthWrite (dropnaDates (parseDateWrite st).1)
          (parseDateWrite st).2).2)

/-- `predict_next_month` (lines 180-233) as a state transformer: it
only calls `_monthly_totals` and computes on the resulting series. -/
def predict_next_month_st (st : List HRow) : Option ℚ × List HRow :=
  (predictFromMonthly (_monthly_totals_st st).1, (_monthly_totals_st st).2)

/-- **C8 (confirmed).** The derived operations `filter_data`,
`compute_summary` and `predict_next_month` (via `_monthly_totals`)
leave the caller's table unchanged: in the explicit object-state
embedding, every column assignment in their bodies happens through a
local bound to a copy or to a derived frame (never through the
caller's object), so the caller's table after each call is exactly the
table before it. -/
theorem frame_spec (st : List HRow) (s e c : Option String) :
    (filter_data_st st s e c).2 = st
    ∧ (compute_summary_st st).2 = st
    ∧ (predict_next_month_st st).2 = st := by
  have hflag : ∀ s' e' c',
      (stCat c' (stEnd e' (stStart s' (parseDateWrite st).1))).sameAsCaller
        = false :=
    fun s' e' c' =>
      stCat_flag c' _ (stEnd_flag e' _ (stStart_flag s' _ (parseDateWrite_flag st)))
  refine ⟨?_, rfl, ?_⟩
  · unfold filter_data_st
    by_cases h : st = []
    · rw [if_pos h]
    · rw [if_neg h]
      rw [writeFrame_snd _ _ _ (hflag s e c)]
      exact parseDateWrite_snd st
  · show (_monthly_totals_st st).2 = st
    unfold _monthly_totals_st
    by_cases h : st = []
    · rw [if_pos h]
    · rw [if_neg h]
      by_cases h2 : (dropnaDates (parseDateWrite st).1).val = []
      · rw [if_pos h2]
        exact parseDateWrite_snd st
      · rw [if_neg h2]
        show (monthWrite (dropnaDates (parseDateWrite st).1)
            (parseDateWrite st).2).2 = st
        unfold monthWrite
        rw [writeFrame_snd _ _ _ rfl]
        exact parseDateWrite_snd st
